import Mathlib

/-!
Verification of the admissions recruitment-analytics pipeline (app.py).

The pipeline reads a per-applicant table, normalizes flag and GPA fields,
aggregates by institution, computes yield-type ratios and a Bayesian-shrunk
ROI score, classifies institutions into four priority quadrants, simulates
a counterfactual yield uplift per (school, admit-term) cohort, and fits a
clamped compound growth rate.  Below, each stage is embedded shallowly:
pandas numeric columns become rational numbers, pandas NaN/inf values become
an explicit `PFloat` type, and row operations become Lean functions on lists.
-/

/-- Tuition per semester, the fixed constant `TUITION_PER_SEM` in app.py. -/
def TUITION_PER_SEM : ℚ := 3465

/-!
Yield-Simulation Engine (app.py lines 124-155).

`semester_yield` groups the raw table by (school, term) into cohorts with
summed `admitted` and `enrolled` and the first `semesters_lost` of the group
(null when the admit-term code is unknown), then keeps only cohorts with
`admitted > 0`.  A `Cohort` below is one row of that filtered frame.
-/

/-- One row of the `semester_yield` frame: a (school, admit-term) cohort with
summed admitted and enrolled counts and the cohort term value of
`semesters_lost` (`none` models the NaN a term code absent from
`semesters_lost_map` produces). -/
structure Cohort where
  school : String
  admitted : ℚ
  enrolled : ℚ
  semesters_lost : Option ℚ
deriving DecidableEq, Repr

/-- Line 133: `semester_yield = semester_yield[semester_yield.admitted > 0]`. -/
def qualifying (cs : List Cohort) : List Cohort :=
  cs.filter fun c => 0 < c.admitted

/-- Lines 135-137: `new_yield = ((enrolled / admitted) * (1 + r)).clip(upper=1)`,
i.e. the uplifted current yield capped at 1. -/
def new_yield (r : ℚ) (c : Cohort) : ℚ :=
  min (c.enrolled / c.admitted * (1 + r)) 1

/-- Line 139: `expected_enrolled = admitted * new_yield`. -/
def expected_enrolled (r : ℚ) (c : Cohort) : ℚ :=
  c.admitted * new_yield r c

/-- Line 140: `additional_students = expected_enrolled - enrolled`. -/
def additional_students (r : ℚ) (c : Cohort) : ℚ :=
  expected_enrolled r c - c.enrolled

/-- Lines 142-146: `additional_revenue = additional_students * semesters_lost *
TUITION_PER_SEM`; a null `semesters_lost` propagates to a null revenue. -/
def additional_revenue (r : ℚ) (c : Cohort) : Option ℚ :=
  c.semesters_lost.map fun s => additional_students r c * s * TUITION_PER_SEM

/-- Pandas `groupby(...).sum()` over a column that may hold NaN: NaN entries
are skipped (skipna), so an all-null group sums to 0. -/
def sum_skipna (l : List (Option ℚ)) : ℚ :=
  (l.filterMap id).sum

/-- Lines 148-154: `additional_revenue_hs` groups `semester_yield` by school and
sums `additional_revenue`; the result is left-merged onto `hs`, so a school
with no qualifying cohort (absent from the grouped frame) receives NaN
(`none`), and a school present receives the group sum. -/
def additional_revenue_hs (r : ℚ) (cs : List Cohort) (s : String) : Option ℚ :=
  match (qualifying cs).filter fun c => c.school = s with
  | [] => none
  | g => some (sum_skipna (g.map (additional_revenue r)))

/-!
Ratio & Shrinkage Engine (app.py lines 109-116), shrinkage part.
-/

/-- Line 111: the per-institution raw ROI column `enrolled / applicants`
(over ℚ; the zero-denominator case is treated separately via `PFloat`). -/
def roi (enrolled applicants : ℚ) : ℚ := enrolled / applicants

/-- Line 114: `global_roi = hs.enrolled.sum() / hs.applicants.sum()` over the
list of institution rows, each row abbreviated to its
(enrolled, applicants) pair. -/
def global_roi (hs : List (ℚ × ℚ)) : ℚ :=
  (hs.map Prod.fst).sum / (hs.map Prod.snd).sum

/-- Line 116: `bayes_ROI = (enrolled + global_roi*k) / (applicants + k)` with
`k = 5`, the Bayesian-shrunk ROI of one institution row, taking the global
ratio `g` as a parameter. -/
def bayes_ROI (enrolled applicants g : ℚ) : ℚ :=
  (enrolled + g * 5) / (applicants + 5)

/-!
Growth Projector (app.py lines 211-215).  The Python floats are modelled as
real numbers and `**` as real exponentiation.
-/

/-- Lines 211-215: `calculate_cagr(first, last, years)` returns 0 when
`first <= 0 or years <= 0`, and otherwise `(last/first)**(1/years) - 1`
clamped into [-0.25, 0.25] by `max(min(rate, 0.25), -0.25)`. -/
noncomputable def calculate_cagr (first last years : ℝ) : ℝ :=
  if first ≤ 0 ∨ years ≤ 0 then 0
  else max (min ((last / first) ^ (1 / years) - 1) 0.25) (-0.25)

/-!
Classifier (app.py lines 160-173).  Row fields and thresholds may be NaN in
pandas, and every comparison against NaN is False; an `Option ℚ` with `none`
for NaN plus comparison helpers that return `false` on `none` model this.
-/

/-- A pandas scalar comparison `x >= y`: false whenever either side is NaN. -/
def nan_ge (x y : Option ℚ) : Bool :=
  match x, y with
  | some a, some b => decide (b ≤ a)
  | _, _ => false

/-- A pandas scalar comparison `x < y`: false whenever either side is NaN. -/
def nan_lt (x y : Option ℚ) : Bool :=
  match x, y with
  | some a, some b => decide (a < b)
  | _, _ => false

/-- Lines 163-171: `classify(row)` compares the row applicants and bayes_ROI
against `vol_thresh` and `roi_thresh` through the four if/elif branches and
falls through to the final else. -/
def classify (applicants bayes vol_thresh roi_thresh : Option ℚ) : String :=
  if nan_ge applicants vol_thresh && nan_ge bayes roi_thresh then "Flagship"
  else if nan_lt applicants vol_thresh && nan_ge bayes roi_thresh then "Fringe Gem"
  else if nan_ge applicants vol_thresh && nan_lt bayes roi_thresh then "Over-recruited"
  else "Low Priority"

/-!
Ratio columns (app.py lines 109-112).  Pandas float division of the integer
sum columns yields +inf, -inf or NaN on a zero denominator; line 112 then
replaces both infinities by NaN across the frame.  `PFloat` makes those
special values explicit.
-/

/-- A pandas float cell: an ordinary (rational) value, an infinity, or NaN. -/
inductive PFloat where
  | val : ℚ → PFloat
  | pinf : PFloat
  | ninf : PFloat
  | nan : PFloat
deriving DecidableEq, Repr

/-- IEEE-style division of two finite values as pandas performs it on the sum
columns: `e/0` is +inf or -inf by the sign of `e`, and `0/0` is NaN. -/
def fdiv (e d : ℚ) : PFloat :=
  if d = 0 then
    if e = 0 then PFloat.nan
    else if 0 < e then PFloat.pinf
    else PFloat.ninf
  else PFloat.val (e / d)

/-- Line 112: `hs.replace([np.inf, -np.inf], np.nan)` on one cell. -/
def replaceInf : PFloat → PFloat
  | PFloat.pinf => PFloat.nan
  | PFloat.ninf => PFloat.nan
  | x => x

/-- Line 109: the `yield` column, `enrolled / admitted` after the infinity
replacement of line 112. -/
def yield_col (enrolled admitted : ℚ) : PFloat :=
  replaceInf (fdiv enrolled admitted)

/-- Line 110: the `specific_yield` column, `enrolled / matriculated` after the
infinity replacement of line 112. -/
def specific_yield (enrolled matriculated : ℚ) : PFloat :=
  replaceInf (fdiv enrolled matriculated)

/-- Line 111: the `ROI` column, `enrolled / applicants` after the infinity
replacement of line 112. -/
def ROI_col (enrolled applicants : ℚ) : PFloat :=
  replaceInf (fdiv enrolled applicants)

/-- The finite entries of a column of pandas cells. -/
def finiteVals (xs : List PFloat) : List ℚ :=
  xs.filterMap fun x => match x with
    | PFloat.val q => some q
    | _ => none

/-- Pandas `Series.mean()` with its default `skipna=True`: the mean of the
non-null entries, NaN when every entry is null.  This is the mean used for
`vol_thresh`, `roi_thresh` (lines 160-161) and `HS_quality` (line 98). -/
def nanmean (xs : List PFloat) : PFloat :=
  let vs := finiteVals xs
  if vs.length = 0 then PFloat.nan else PFloat.val (vs.sum / vs.length)

/-!
Institution Aggregator, modal program (app.py line 99):
`lambda x: x.mode()[0] if not x.mode().empty else None`.
Pandas `Series.mode()` drops nulls, finds the values of maximal frequency and
returns them SORTED in ascending order, so `[0]` is the smallest such value
under the string order (lexicographic by code point).
-/

/-- Lexicographic order on code-point lists, the order pandas sorts string
values by. -/
def lexLe : List Char → List Char → Bool
  | [], _ => true
  | _ :: _, [] => false
  | a :: as, b :: bs =>
    if a.toNat < b.toNat then true
    else if b.toNat < a.toNat then false
    else lexLe as bs

/-- String comparison by code points, as Python compares `str` values. -/
def strle (a b : String) : Bool := lexLe a.data b.data

/-- The smaller of two strings under `strle`. -/
def strMin (a b : String) : String := if strle a b then a else b

/-- The non-null values of the group column, as `mode()` (dropna) sees them. -/
def progVals (xs : List (Option String)) : List String :=
  xs.filterMap id

/-- The maximal frequency among the non-null values of the group column. -/
def maxCount (xs : List (Option String)) : ℕ :=
  ((progVals xs).map fun v => (progVals xs).count v).foldr max 0

/-- The values attaining the maximal frequency — the multiset `mode()` returns
(before its ascending sort). -/
def modeCandidates (xs : List (Option String)) : List String :=
  (progVals xs).filter fun v => (progVals xs).count v = maxCount xs

/-- Line 99: the modal program of a group.  The group column is a list of
optional strings (`none` = null); nulls are dropped, the maximal frequency is
found, and among the values attaining it the least under the pandas sort
order is returned (`mode()` sorts ascending and `[0]` takes the head), or
`none` when the group has no non-null value (`mode().empty`). -/
def most_common_program (xs : List (Option String)) : Option String :=
  match modeCandidates xs with
  | [] => none
  | c :: cs => some (cs.foldl strMin c)

/-- Modelled from the spec: the modal program with ties broken by FIRST-SEEN
order — "most frequent non-null program value, first in insertion order on
ties".  Spec wording only; the source (pandas `mode()[0]`) is
`most_common_program` above. -/
def modal_program_first_seen (xs : List (Option String)) : Option String :=
  (modeCandidates xs).head?

/-!
Record Normalizer, GPA coercion (app.py lines 74-75):
`df[gpa_col] = df[gpa_col].astype(float)`.
A CSV cell read by pandas is missing (NaN), already numeric, or a non-numeric
string; `astype(float)` keeps NaN, keeps numbers, and RAISES ValueError on a
non-numeric string.
-/

/-- One raw gpa cell as `read_csv` delivers it: missing, numeric, or a
non-numeric text token. -/
inductive Cell where
  | na : Cell
  | num : ℚ → Cell
  | text : String → Cell
deriving DecidableEq, Repr

/-- Lines 74-75: `astype(float)` on one gpa cell.  Missing stays null, a
number is kept, and a non-numeric string raises (modelled as `Except.error`),
aborting the run. -/
def astypeFloat : Cell → Except String (Option ℚ)
  | Cell.na => Except.ok none
  | Cell.num q => Except.ok (some q)
  | Cell.text s => Except.error ("could not convert string to float: " ++ s)

/-!
Institution Aggregator, GPA column choice (app.py line 98):
`HS_quality=(field_map.get('gpa', field_map['admitted']), 'mean')`.
When 'gpa' is absent from the field map, the aggregation silently falls back
to the ADMITTED column and averages that.
-/

/-- The slice of the resolved field map that the `HS_quality` aggregation
reads: the optional gpa source column and the admitted source column. -/
structure FieldMap where
  gpa : Option String
  admitted : String
deriving DecidableEq, Repr

/-- Line 98: `field_map.get('gpa', field_map['admitted'])`, the source column
the `HS_quality` mean is taken over. -/
def hs_quality_source (fm : FieldMap) : String :=
  fm.gpa.getD fm.admitted

/-- Line 98: the aggregated `HS_quality` value of one group, the skipna mean
of the chosen source column (`col` maps a source column name to the group
column contents). -/
def HS_quality (fm : FieldMap) (col : String → List PFloat) : PFloat :=
  nanmean (col (hs_quality_source fm))

/-- Modelled from the spec: "every downstream stage must tolerate a missing
optional field by omitting the metric it feeds" — the average-GPA metric is
omitted (`none`) when gpa is absent from the SchemaMap, never computed from a
substitute column. -/
def HS_quality_omitting (fm : FieldMap) (col : String → List PFloat) : Option PFloat :=
  fm.gpa.map fun g => nanmean (col g)

/-!
Theorems.  Each claim of the specification is settled below.
-/

/-- C1 counterexample: a school whose only cohort has `admitted = 0` has no
qualifying cohort, and after the left merge its `additional_revenue` cell is
null (`none`), not the fill value 0 the claim states. -/
theorem additional_revenue_fill_is_null :
    additional_revenue_hs (1/10) [Cohort.mk "X" 0 0 (some 4)] "X" = none ∧
    (none : Option ℚ) ≠ some 0 := by
  constructor
  · unfold additional_revenue_hs qualifying
    norm_num
  · simp

/-- C1 (amended): only `additional_revenue` is rolled up: it is summed per
school over the qualifying cohorts (those with `admitted > 0`) and
left-merged onto the institution table, and an institution with NO qualifying
cohort carries null (NaN), not 0, in the merged column; an institution with a
qualifying cohort carries the per-school skipna sum. -/
theorem additional_revenue_hs_merge (r : ℚ) (cs : List Cohort) (s : String) :
    (additional_revenue_hs r cs s = none ↔
      ∀ c ∈ cs, c.school = s → c.admitted ≤ 0) ∧
    (∀ c ∈ cs, c.school = s → 0 < c.admitted →
      additional_revenue_hs r cs s =
        some (sum_skipna (((qualifying cs).filter fun c => c.school = s).map
          (additional_revenue r)))) := by
  have hiff : ((qualifying cs).filter fun c => c.school = s) = [] ↔
      ∀ c ∈ cs, c.school = s → c.admitted ≤ 0 := by
    rw [List.filter_eq_nil_iff]
    constructor
    · intro h c hc hsch
      by_contra hpos
      push_neg at hpos
      have hq : c ∈ qualifying cs := by
        unfold qualifying
        exact List.mem_filter.mpr ⟨hc, by simpa using hpos⟩
      have := h c hq
      simp [hsch] at this
    · intro h c hc
      have hc2 := List.mem_filter.mp (show c ∈ List.filter _ cs from hc)
      have hadm : 0 < c.admitted := by simpa using hc2.2
      have hle := h c hc2.1
      simp only [decide_eq_true_eq]
      intro hsch
      exact absurd (hle hsch) (not_le.mpr hadm)
  cases hg : (qualifying cs).filter fun c => c.school = s with
  | nil =>
    have hval : additional_revenue_hs r cs s = none := by
      unfold additional_revenue_hs
      rw [hg]
    constructor
    · rw [hval, ← hiff, hg]
      simp
    · intro c hc hsch hadm
      exfalso
      have hq : c ∈ qualifying cs := by
        unfold qualifying
        exact List.mem_filter.mpr ⟨hc, by simpa using hadm⟩
      have hmem : c ∈ (qualifying cs).filter fun c => c.school = s :=
        List.mem_filter.mpr ⟨hq, by simpa using hsch⟩
      rw [hg] at hmem
      cases hmem
  | cons c0 cs0 =>
    have hval : additional_revenue_hs r cs s =
        some (sum_skipna ((c0 :: cs0).map (additional_revenue r))) := by
      unfold additional_revenue_hs
      rw [hg]
    constructor
    · have hc0 : c0 ∈ (qualifying cs).filter fun c => c.school = s := by
        rw [hg]
        exact List.mem_cons_self _ _
      have hm := List.mem_filter.mp hc0
      have hq := List.mem_filter.mp (show c0 ∈ List.filter _ cs from hm.1)
      have hadm : 0 < c0.admitted := by simpa using hq.2
      have hsch : c0.school = s := by simpa using hm.2
      constructor
      · intro h
        rw [hval] at h
        cases h
      · intro hall
        exact absurd hadm (not_lt.mpr (hall c0 hq.1 hsch))
    · intro c hc hsch hadm
      rw [hval]

/-- C1 witness: a school with one qualifying cohort receives the summed
additional revenue of its qualifying cohorts after the merge. -/
theorem additional_revenue_hs_merge_witness :
    additional_revenue_hs 0 [Cohort.mk "X" 1 1 (some 2)] "X" =
      some (sum_skipna
        (((qualifying [Cohort.mk "X" 1 1 (some 2)]).filter
          fun c => c.school = "X").map (additional_revenue 0))) := by
  refine (additional_revenue_hs_merge 0 [Cohort.mk "X" 1 1 (some 2)] "X").2
    (Cohort.mk "X" 1 1 (some 2)) (List.mem_cons_self _ _) rfl ?_
  norm_num

/-- C2 counterexample: a cohort whose enrolled sum exceeds its admitted sum
(one record admitted=N, enrolled=Y plus one admitted=Y, enrolled=Y gives
admitted = 1, enrolled = 2) satisfies every hypothesis of the claim at
uplift r = 0 yet gets a NEGATIVE `additional_students`. -/
theorem additional_students_negative_example :
    (0:ℚ) ≤ 0 ∧ (0:ℚ) ≤ 1/2 ∧ 0 < (Cohort.mk "X" 1 2 (some 1)).admitted ∧
    additional_students 0 (Cohort.mk "X" 1 2 (some 1)) < 0 := by
  refine ⟨le_refl 0, by norm_num, by norm_num, ?_⟩
  unfold additional_students expected_enrolled new_yield
  norm_num

/-- C2 (amended): for every cohort with `admitted > 0`,
`0 ≤ enrolled ≤ admitted` and any uplift r in [0, 0.5], the simulated
`new_yield` equals `min(current_yield * (1+r), 1)`, hence is at most 1, and
`additional_students = admitted * new_yield - enrolled` is nonnegative. -/
theorem new_yield_capped_and_additional_nonneg (r : ℚ) (c : Cohort)
    (hr0 : 0 ≤ r) (hr1 : r ≤ 1/2) (ha : 0 < c.admitted)
    (he0 : 0 ≤ c.enrolled) (hea : c.enrolled ≤ c.admitted) :
    new_yield r c = min (c.enrolled / c.admitted * (1 + r)) 1 ∧
    new_yield r c ≤ 1 ∧
    additional_students r c = c.admitted * new_yield r c - c.enrolled ∧
    0 ≤ additional_students r c := by
  refine ⟨rfl, min_le_right _ _, rfl, ?_⟩
  unfold additional_students expected_enrolled new_yield
  rcases le_total (c.enrolled / c.admitted * (1 + r)) 1 with h | h
  · rw [min_eq_left h]
    have hc : c.admitted * (c.enrolled / c.admitted * (1 + r)) =
        c.enrolled * (1 + r) := by
      field_simp
    rw [hc]
    nlinarith
  · rw [min_eq_right h]
    nlinarith

/-- C2 witness: the scenario-B cohort (admitted 100, enrolled 40) at uplift
r = 1/10 has new_yield at most 1 and a nonnegative additional_students. -/
theorem new_yield_capped_and_additional_nonneg_witness :
    new_yield (1/10) (Cohort.mk "X" 100 40 (some 4)) ≤ 1 ∧
    0 ≤ additional_students (1/10) (Cohort.mk "X" 100 40 (some 4)) := by
  have h := new_yield_capped_and_additional_nonneg (1/10)
    (Cohort.mk "X" 100 40 (some 4)) (by norm_num) (by norm_num)
    (by norm_num) (by norm_num) (by norm_num)
  exact ⟨h.2.1, h.2.2.2⟩

/-- C3: for an institution with positive applicants whose raw roi differs
from the global ratio, the Bayesian-shrunk score lies strictly between the
two: above the smaller and below the larger. -/
theorem bayes_ROI_strictly_between (hs : List (ℚ × ℚ)) (e a : ℚ)
    (ha : 0 < a) (hne : roi e a ≠ global_roi hs) :
    min (roi e a) (global_roi hs) < bayes_ROI e a (global_roi hs) ∧
    bayes_ROI e a (global_roi hs) < max (roi e a) (global_roi hs) := by
  have ha5 : (0:ℚ) < a + 5 := by linarith
  have hane : a ≠ 0 := ne_of_gt ha
  have hea : roi e a * a = e := div_mul_cancel₀ e hane
  unfold bayes_ROI
  rcases lt_or_gt_of_ne hne with h | h
  · rw [min_eq_left h.le, max_eq_right h.le]
    constructor
    · rw [lt_div_iff₀ ha5]
      nlinarith [hea]
    · rw [div_lt_iff₀ ha5]
      nlinarith [hea, mul_lt_mul_of_pos_right h ha]
  · rw [min_eq_right h.le, max_eq_left h.le]
    constructor
    · rw [lt_div_iff₀ ha5]
      nlinarith [hea, mul_lt_mul_of_pos_right h ha]
    · rw [div_lt_iff₀ ha5]
      nlinarith [hea]

/-- C3 witness: with institution rows [(enrolled 1, applicants 2),
(enrolled 0, applicants 2)] the global ratio is 1/4; the row with enrolled 1
of applicants 1 has roi 1 and its shrunk score lies strictly between 1/4
and 1. -/
theorem bayes_ROI_strictly_between_witness :
    (0:ℚ) < 1 ∧ roi 1 1 ≠ global_roi [(1, 2), (0, 2)] ∧
    min (roi 1 1) (global_roi [(1, 2), (0, 2)]) <
      bayes_ROI 1 1 (global_roi [(1, 2), (0, 2)]) ∧
    bayes_ROI 1 1 (global_roi [(1, 2), (0, 2)]) <
      max (roi 1 1) (global_roi [(1, 2), (0, 2)]) := by
  have hne : roi 1 1 ≠ global_roi [(1, 2), (0, 2)] := by
    norm_num [roi, global_roi]
  have h := bayes_ROI_strictly_between [(1, 2), (0, 2)] 1 1 one_pos hne
  exact ⟨one_pos, hne, h.1, h.2⟩

/-- C4: `calculate_cagr` always lands in [-0.25, 0.25]; it returns 0 whenever
`first ≤ 0` or `years ≤ 0` and otherwise the clamped
`(last/first)^(1/years) - 1`; in particular cagr(0, x, 5) = 0 and
cagr(100, 100, 3) = 0. -/
theorem calculate_cagr_spec (first last years : ℝ) :
    (-0.25 ≤ calculate_cagr first last years ∧
      calculate_cagr first last years ≤ 0.25) ∧
    (first ≤ 0 ∨ years ≤ 0 → calculate_cagr first last years = 0) ∧
    (0 < first → 0 < years →
      calculate_cagr first last years =
        max (min ((last / first) ^ (1 / years) - 1) 0.25) (-0.25)) ∧
    calculate_cagr 0 last 5 = 0 ∧
    calculate_cagr 100 100 3 = 0 := by
  refine ⟨?_, ?_, ?_, ?_, ?_⟩
  · unfold calculate_cagr
    split
    · norm_num
    · constructor
      · exact le_max_right _ _
      · exact max_le (le_trans (min_le_right _ _) le_rfl) (by norm_num)
  · intro h
    unfold calculate_cagr
    rw [if_pos h]
  · intro h1 h2
    unfold calculate_cagr
    rw [if_neg (by push_neg; exact ⟨h1, h2⟩)]
  · unfold calculate_cagr
    rw [if_pos (Or.inl le_rfl)]
  · unfold calculate_cagr
    rw [if_neg (by push_neg; norm_num)]
    have h100 : (100:ℝ) / 100 = 1 := by norm_num
    rw [h100, Real.one_rpow]
    norm_num

/-- C4 witness: the two pinned instances, obtained from the general theorem. -/
theorem calculate_cagr_spec_witness :
    calculate_cagr 0 7 5 = 0 ∧ calculate_cagr 100 100 3 = 0 :=
  ⟨(calculate_cagr_spec 0 7 5).2.1 (Or.inl le_rfl),
   (calculate_cagr_spec 100 100 3).2.2.2.2⟩

/-- C5: on non-null inputs (the pipeline always feeds classify non-null
applicants, bayes_ROI and thresholds), the assigned category is one of the
four strings and is determined exactly by the quadrant table with ≥ counting
as meeting a threshold; the four quadrant conditions are mutually exclusive
and jointly exhaustive, so the categories partition the institution set. -/
theorem classify_quadrant_partition (a b v r : ℚ) :
    classify (some a) (some b) (some v) (some r) ∈
      (["Flagship", "Fringe Gem", "Over-recruited", "Low Priority"] :
        List String) ∧
    (classify (some a) (some b) (some v) (some r) = "Flagship" ↔
      v ≤ a ∧ r ≤ b) ∧
    (classify (some a) (some b) (some v) (some r) = "Fringe Gem" ↔
      a < v ∧ r ≤ b) ∧
    (classify (some a) (some b) (some v) (some r) = "Over-recruited" ↔
      v ≤ a ∧ b < r) ∧
    (classify (some a) (some b) (some v) (some r) = "Low Priority" ↔
      a < v ∧ b < r) := by
  rcases le_or_lt v a with h1 | h1 <;> rcases le_or_lt r b with h2 | h2
  · simp [classify, nan_ge, nan_lt, h1, h2, not_lt.mpr h1, not_lt.mpr h2]
  · simp [classify, nan_ge, nan_lt, h1, h2, not_lt.mpr h1, not_le.mpr h2]
  · simp [classify, nan_ge, nan_lt, h1, h2, not_le.mpr h1, not_lt.mpr h2]
  · simp [classify, nan_ge, nan_lt, h1, h2, not_le.mpr h1, not_le.mpr h2]

/-- C10: classify is total — every row, null fields and null thresholds
included, receives one of the four category strings — and whenever both
≥-comparisons are false (in particular whenever applicants, bayes_ROI or a
threshold is null, since every comparison against null is false) the final
else branch assigns Low Priority. -/
theorem classify_total_and_default (a b v r : Option ℚ) :
    (classify a b v r = "Flagship" ∨ classify a b v r = "Fringe Gem" ∨
     classify a b v r = "Over-recruited" ∨
     classify a b v r = "Low Priority") ∧
    (nan_ge a v = false → nan_ge b r = false →
      classify a b v r = "Low Priority") := by
  constructor
  · unfold classify
    split
    · exact Or.inl rfl
    · split
      · exact Or.inr (Or.inl rfl)
      · split
        · exact Or.inr (Or.inr (Or.inl rfl))
        · exact Or.inr (Or.inr (Or.inr rfl))
  · intro h1 h2
    simp [classify, h1, h2]

/-- C10 witness: a row whose applicants and bayes_ROI are both null fails
both ≥-comparisons and lands in Low Priority. -/
theorem classify_total_and_default_witness :
    classify none none (some 3) (some 5) = "Low Priority" :=
  (classify_total_and_default none none (some 3) (some 5)).2 rfl rfl

/-- C6: each of the three ratio columns is null (NaN, not zero and not an
infinity) whenever its denominator is zero — in particular specific_yield is
null when matriculated = 0 — and the pandas mean that the thresholds use
skips null entries instead of treating them as zero. -/
theorem ratios_null_when_denominator_zero (e : ℚ) (xs : List PFloat) :
    yield_col e 0 = PFloat.nan ∧
    specific_yield e 0 = PFloat.nan ∧
    ROI_col e 0 = PFloat.nan ∧
    nanmean (PFloat.nan :: xs) = nanmean xs := by
  have hdiv : replaceInf (fdiv e 0) = PFloat.nan := by
    unfold fdiv
    by_cases he : e = 0
    · simp [he, replaceInf]
    · by_cases hp : 0 < e <;> simp [he, hp, replaceInf]
  exact ⟨hdiv, hdiv, hdiv, rfl⟩

/-- C8 counterexample: a non-numeric gpa string is not coerced to null —
`astype(float)` raises a ValueError (modelled as `Except.error`), aborting
the run. -/
theorem astypeFloat_text_raises :
    astypeFloat (Cell.text "abc") =
      Except.error "could not convert string to float: abc" ∧
    (astypeFloat (Cell.text "abc")).toOption = none :=
  ⟨rfl, rfl⟩

/-- C8 (amended): the Normalizer keeps a missing gpa as null and a numeric
gpa as its value, but a gpa that is unparseable as a number raises an error
that aborts the run — it is NOT coerced to null. -/
theorem astypeFloat_spec (q : ℚ) (s : String) :
    astypeFloat Cell.na = Except.ok none ∧
    astypeFloat (Cell.num q) = Except.ok (some q) ∧
    astypeFloat (Cell.text s) =
      Except.error ("could not convert string to float: " ++ s) ∧
    (astypeFloat (Cell.text s)).toOption = none :=
  ⟨rfl, rfl, rfl, rfl⟩

/-- C9 counterexample: with gpa absent from the field map and an admitted
column holding flags 1 and 0, the aggregator computes HS_quality = 1/2, the
mean of the ADMITTED column, while the spec-modelled behavior omits the
metric entirely. -/
theorem HS_quality_fallback_not_omitted :
    HS_quality (FieldMap.mk none "admitted")
      (fun c => if c = "admitted" then [PFloat.val 1, PFloat.val 0] else []) =
      PFloat.val (1/2) ∧
    HS_quality_omitting (FieldMap.mk none "admitted")
      (fun c => if c = "admitted" then [PFloat.val 1, PFloat.val 0] else []) =
      none := by
  constructor
  · show nanmean [PFloat.val 1, PFloat.val 0] = PFloat.val (1/2)
    have h : finiteVals [PFloat.val 1, PFloat.val 0] = [1, 0] := rfl
    rw [nanmean, h]
    norm_num
  · rfl

/-- C9 (amended): when gpa is absent from the resolved field map, the
aggregator does not omit the average-GPA metric: `field_map.get` falls back
to the admitted column and HS_quality becomes the skipna mean of the
admitted flags. -/
theorem HS_quality_gpa_absent_uses_admitted (fm : FieldMap)
    (col : String → List PFloat) (h : fm.gpa = none) :
    hs_quality_source fm = fm.admitted ∧
    HS_quality fm col = nanmean (col fm.admitted) := by
  unfold HS_quality hs_quality_source
  rw [h]
  exact ⟨rfl, rfl⟩

/-- C9 witness: the fallback at a concrete field map with gpa absent. -/
theorem HS_quality_gpa_absent_uses_admitted_witness :
    hs_quality_source (FieldMap.mk none "adm") = "adm" ∧
    HS_quality (FieldMap.mk none "adm") (fun _ => [PFloat.val 3]) =
      nanmean [PFloat.val 3] :=
  HS_quality_gpa_absent_uses_admitted (FieldMap.mk none "adm")
    (fun _ => [PFloat.val 3]) rfl

/-- Every member of a list of naturals is bounded by its foldr maximum. -/
theorem le_foldr_max {l : List ℕ} {x : ℕ} (hx : x ∈ l) : x ≤ l.foldr max 0 := by
  induction l with
  | nil => cases hx
  | cons a as ih =>
    simp only [List.foldr_cons]
    rcases List.mem_cons.mp hx with rfl | h
    · exact le_max_left _ _
    · exact le_trans (ih h) (le_max_right _ _)

/-- The foldr maximum of a list of naturals is 0 or one of its members. -/
theorem foldr_max_mem (l : List ℕ) : l.foldr max 0 = 0 ∨ l.foldr max 0 ∈ l := by
  induction l with
  | nil => exact Or.inl rfl
  | cons a as ih =>
    simp only [List.foldr_cons]
    rcases le_total a (as.foldr max 0) with h | h
    · rw [max_eq_right h]
      rcases ih with h0 | hm
      · exact Or.inl h0
      · exact Or.inr (List.mem_cons_of_mem a hm)
    · rw [max_eq_left h]
      exact Or.inr (List.mem_cons_self a as)

/-- The code-point order is reflexive. -/
theorem lexLe_refl (l : List Char) : lexLe l l = true := by
  induction l with
  | nil => rfl
  | cons a as ih => simp [lexLe, ih]

/-- The code-point order is total. -/
theorem lexLe_total (x y : List Char) : lexLe x y = true ∨ lexLe y x = true := by
  induction x generalizing y with
  | nil => exact Or.inl rfl
  | cons a as ih =>
    cases y with
    | nil => exact Or.inr rfl
    | cons b bs =>
      rcases Nat.lt_trichotomy a.toNat b.toNat with h | h | h
      · exact Or.inl (by simp [lexLe, h])
      · rcases ih bs with h1 | h1
        · exact Or.inl (by simp [lexLe, h, h1])
        · exact Or.inr (by simp [lexLe, h, h1])
      · exact Or.inr (by simp [lexLe, h])

/-- The code-point order is transitive. -/
theorem lexLe_trans : ∀ {x y z : List Char},
    lexLe x y = true → lexLe y z = true → lexLe x z = true
  | [], _, _, _, _ => rfl
  | _ :: _, [], _, h1, _ => by simp [lexLe] at h1
  | _ :: _, _ :: _, [], _, h2 => by simp [lexLe] at h2
  | a :: as, b :: bs, c :: cs, h1, h2 => by
    rcases Nat.lt_trichotomy a.toNat b.toNat with hab | hab | hab
    · rcases Nat.lt_trichotomy b.toNat c.toNat with hbc | hbc | hbc
      · simp [lexLe, Nat.lt_trans hab hbc]
      · simp [lexLe, ← hbc, hab]
      · simp [lexLe, hbc, Nat.lt_asymm hbc] at h2
    · rcases Nat.lt_trichotomy b.toNat c.toNat with hbc | hbc | hbc
      · simp [lexLe, hab, hbc]
      · simp [lexLe, hab] at h1
        simp [lexLe, hbc] at h2
        simp [lexLe, hab, hbc]
        exact lexLe_trans h1 h2
      · simp [lexLe, hbc, Nat.lt_asymm hbc] at h2
    · simp [lexLe, hab, Nat.lt_asymm hab] at h1

/-- strle is reflexive. -/
theorem strle_refl (a : String) : strle a a = true := lexLe_refl _

/-- strle is total. -/
theorem strle_total (a b : String) : strle a b = true ∨ strle b a = true :=
  lexLe_total _ _

/-- strle is transitive. -/
theorem strle_trans {a b c : String} (h1 : strle a b = true)
    (h2 : strle b c = true) : strle a c = true :=
  lexLe_trans h1 h2

/-- strMin returns one of its arguments. -/
theorem strMin_eq_or (a b : String) : strMin a b = a ∨ strMin a b = b := by
  unfold strMin
  split
  · exact Or.inl rfl
  · exact Or.inr rfl

/-- strMin is below its first argument. -/
theorem strle_strMin_left (a b : String) : strle (strMin a b) a = true := by
  unfold strMin
  split
  · exact strle_refl a
  · rcases strle_total a b with h | h
    · simp_all
    · exact h

/-- strMin is below its second argument. -/
theorem strle_strMin_right (a b : String) : strle (strMin a b) b = true := by
  unfold strMin
  split
  · assumption
  · exact strle_refl b

/-- The strMin fold over a list returns a member of it. -/
theorem foldl_strMin_mem (c : String) (cs : List String) :
    cs.foldl strMin c ∈ c :: cs := by
  induction cs generalizing c with
  | nil => exact List.mem_cons_self _ _
  | cons d ds ih =>
    simp only [List.foldl_cons]
    rcases List.mem_cons.mp (ih (strMin c d)) with h1 | h1
    · rw [h1]
      rcases strMin_eq_or c d with h2 | h2 <;> rw [h2]
      · exact List.mem_cons_self _ _
      · exact List.mem_cons_of_mem _ (List.mem_cons_self _ _)
    · exact List.mem_cons_of_mem _ (List.mem_cons_of_mem _ h1)

/-- The strMin fold over a list is below every member of it. -/
theorem foldl_strMin_le (c : String) (cs : List String) :
    ∀ w ∈ c :: cs, strle (cs.foldl strMin c) w = true := by
  induction cs generalizing c with
  | nil =>
    intro w hw
    rcases List.mem_cons.mp hw with rfl | h
    · exact strle_refl _
    · cases h
  | cons d ds ih =>
    intro w hw
    simp only [List.foldl_cons]
    have hmin : strle (ds.foldl strMin (strMin c d)) (strMin c d) = true :=
      ih (strMin c d) (strMin c d) (List.mem_cons_self _ _)
    rcases List.mem_cons.mp hw with heq | hw1
    · rw [heq]
      exact strle_trans hmin (strle_strMin_left c d)
    · rcases List.mem_cons.mp hw1 with heq | hw2
      · rw [heq]
        exact strle_trans hmin (strle_strMin_right c d)
      · exact ih (strMin c d) w (List.mem_cons_of_mem _ hw2)

/-- C7 counterexample: in a group whose two non-null programs "b" and "a"
are tied for most frequent, the code (pandas `mode()[0]`, ascending sort)
returns "a", while the first-seen tie-break of the claim returns "b". -/
theorem most_common_program_tie_not_first_seen :
    most_common_program [some "b", some "a"] = some "a" ∧
    modal_program_first_seen [some "b", some "a"] = some "b" ∧
    most_common_program [some "b", some "a"] ≠
      modal_program_first_seen [some "b", some "a"] := by
  refine ⟨by decide, by decide, by decide⟩

/-- C7 (amended): the modal program is the most frequent non-null program
value, and when several values are tied for most frequent the
LEXICOGRAPHICALLY SMALLEST one (ascending pandas sort order, not first-seen
order) is chosen; the result is null exactly when the group has no non-null
value. -/
theorem most_common_program_spec (xs : List (Option String)) :
    (most_common_program xs = none ↔ progVals xs = []) ∧
    ∀ m, most_common_program xs = some m →
      m ∈ progVals xs ∧
      (∀ w ∈ progVals xs, (progVals xs).count w ≤ (progVals xs).count m) ∧
      (∀ w ∈ progVals xs, (progVals xs).count w = (progVals xs).count m →
        strle m w = true) := by
  have hle : ∀ w ∈ progVals xs, (progVals xs).count w ≤ maxCount xs := by
    intro w hw
    exact le_foldr_max
      (List.mem_map_of_mem (fun v => (progVals xs).count v) hw)
  have hcands_ne : progVals xs ≠ [] → modeCandidates xs ≠ [] := by
    intro hne
    rcases foldr_max_mem ((progVals xs).map fun v => (progVals xs).count v)
      with h0 | hm
    · exfalso
      rcases List.exists_mem_of_ne_nil _ hne with ⟨v, hv⟩
      have h1 : 0 < (progVals xs).count v := List.count_pos_iff.mpr hv
      have h2 := hle v hv
      rw [show maxCount xs = 0 from h0] at h2
      omega
    · rcases List.mem_map.mp hm with ⟨v, hv, hveq⟩
      intro hnil
      have hvc : v ∈ modeCandidates xs := by
        unfold modeCandidates
        refine List.mem_filter.mpr ⟨hv, ?_⟩
        simpa [maxCount] using hveq
      rw [hnil] at hvc
      cases hvc
  cases hc : modeCandidates xs with
  | nil =>
    have hvals : progVals xs = [] := by
      by_contra hne
      exact hcands_ne hne hc
    have hval : most_common_program xs = none := by
      unfold most_common_program
      rw [hc]
    refine ⟨by simp [hval, hvals], ?_⟩
    intro m hm
    rw [hval] at hm
    cases hm
  | cons c cs =>
    have hval : most_common_program xs = some (cs.foldl strMin c) := by
      unfold most_common_program
      rw [hc]
    have hvals_ne : progVals xs ≠ [] := by
      intro h0
      have hnil : modeCandidates xs = [] := by
        unfold modeCandidates
        rw [h0]
        rfl
      rw [hc] at hnil
      cases hnil
    constructor
    · constructor
      · intro h
        rw [hval] at h
        cases h
      · intro h
        exact absurd h hvals_ne
    · intro m hm
      rw [hval] at hm
      injection hm with hmeq
      subst hmeq
      have hmem_cands : cs.foldl strMin c ∈ modeCandidates xs := by
        rw [hc]
        exact foldl_strMin_mem c cs
      unfold modeCandidates at hmem_cands
      have hmf := List.mem_filter.mp hmem_cands
      have hcnt : (progVals xs).count (cs.foldl strMin c) = maxCount xs := by
        simpa using hmf.2
      refine ⟨hmf.1, ?_, ?_⟩
      · intro w hw
        rw [hcnt]
        exact hle w hw
      · intro w hw hweq
        have hw_cands : w ∈ modeCandidates xs := by
          unfold modeCandidates
          refine List.mem_filter.mpr ⟨hw, ?_⟩
          simp [hweq, hcnt]
        rw [hc] at hw_cands
        exact foldl_strMin_le c cs w hw_cands

/-- C7 witness: in the tied group the returned value "a" is a member, has
maximal frequency, and is below the tied value "b" in the sort order. -/
theorem most_common_program_spec_witness :
    "a" ∈ progVals [some "b", some "a"] ∧ strle "a" "b" = true := by
  have h := (most_common_program_spec [some "b", some "a"]).2 "a" (by decide)
  exact ⟨h.1, h.2.2 "b" (by decide) (by decide)⟩

/-- C5 witness: a concrete row meeting both thresholds is classified
Flagship, via the quadrant table. -/
theorem classify_quadrant_partition_witness :
    classify (some 2) (some 3) (some 1) (some 1) = "Flagship" :=
  (classify_quadrant_partition 2 3 1 1).2.1.mpr ⟨by norm_num, by norm_num⟩
